/-
  Verification of the bootimage repository against its natural-language
  specification.

  Shallow embedding: strings are modelled as `List Char`, file-system paths as
  lists of components, and the interaction with the operating system (process
  spawning, waiting, killing) as an explicit `ProcessBehavior` record plus an
  event trace.  Every definition is translated from the corresponding Rust
  source file, named after the source symbol where Lean allows it.
-/
import Mathlib

set_option linter.unusedVariables false
set_option linter.unnecessarySeqFocus false

deriving instance DecidableEq for Except

namespace Bootimage

/-- The opening-brace character of the `placeholder` pattern. -/
def lbrace : Char := Char.ofNat 123

/-- The closing-brace character of the `placeholder` pattern. -/
def rbrace : Char := Char.ofNat 125

/-- The two-character placeholder pattern substituted by `run`
    (src/run.rs, `arg.replace`). -/
def bracePair : List Char := [lbrace, rbrace]

/-! ### `str::replace` for the two-character pattern (src/run.rs line 23)

Rust's `str::replace(pat, rep)` replaces every non-overlapping occurrence of
`pat`, scanning left to right; replaced text is not rescanned. -/

/-- Embedding of `arg.replace("\x7b\x7d", path)` from src/run.rs: replace every
    non-overlapping occurrence of the placeholder pattern with `path`,
    scanning left to right. -/
def substToken (path : List Char) : List Char → List Char
  | [] => []
  | [c] => [c]
  | c :: d :: rest2 =>
    if c = lbrace then
      if d = rbrace then path ++ substToken path rest2
      else c :: substToken path (d :: rest2)
    else c :: substToken path (d :: rest2)

/-- Splitting a token at every non-overlapping occurrence of the placeholder
    pattern (independent characterisation used to state that substitution hits
    every occurrence). -/
def splitOnBrace : List Char → List (List Char)
  | [] => [[]]
  | [c] => [[c]]
  | c :: d :: rest2 =>
    if c = lbrace then
      if d = rbrace then [] :: splitOnBrace rest2
      else
        match splitOnBrace (d :: rest2) with
        | [] => [[c]]
        | s :: ss => (c :: s) :: ss
    else
      match splitOnBrace (d :: rest2) with
      | [] => [[c]]
      | s :: ss => (c :: s) :: ss

/-! ### Configuration and runner arguments (src/config.rs, src/args.rs),
restricted to the fields read by `run` (src/run.rs). -/

/-- The fields of `Config` consumed by `run` in src/run.rs. -/
structure Config where
  run_command : List (List Char)
  test_no_reboot : Bool
  test_args : Option (List (List Char))
  run_args : Option (List (List Char))
  test_timeout : Nat
  test_success_exit_code : Option Int

/-- The fields of `RunnerArgs` consumed by `run` in src/run.rs. -/
structure RunnerArgs where
  runner_args : Option (List (List Char))
  quiet : Bool

/-- The `"-no-reboot"` token pushed for test runs (src/run.rs line 27). -/
def noRebootToken : List Char := String.toList "-no-reboot"

/-- Embedding of the argv construction in `run` (src/run.rs lines 20-37):
    every token of `config.run_command` undergoes placeholder substitution,
    then for tests `-no-reboot` (when `test_no_reboot`) and `test_args` are
    appended, for plain runs `run_args`, and finally `args.runner_args`. -/
def buildRunCommand (config : Config) (args : RunnerArgs) (imagePath : List Char)
    (isTest : Bool) : List (List Char) :=
  let base := config.run_command.map (substToken imagePath)
  let base :=
    if isTest then
      (if config.test_no_reboot then base ++ [noRebootToken] else base)
        ++ (config.test_args.getD [])
    else
      base ++ (config.run_args.getD [])
  base ++ (args.runner_args.getD [])

/-! ### Errors returned by `run` (src/run.rs, `RunError` and `IoErrorContext`). -/

/-- Embedding of `IoErrorContext` from src/run.rs. -/
inductive IoErrorContext
  | QemuRunCommand
  | QemuTestCommand
  | WaitWithTimeout
  | KillQemu
  | WaitForQemu
deriving DecidableEq, Repr

/-- Embedding of `RunError` from src/run.rs. -/
inductive RunError
  | TestTimedOut
  | NoQemuExitCode
  | Io (context : IoErrorContext)
deriving DecidableEq, Repr

/-! ### The OS-facing behavior of one child process. -/

/-- Outcome of `child.wait_timeout(timeout)` in src/run.rs line 54:
    an I/O error, a timeout (`None`), or an exit status (`Some`), the latter
    carrying an optional exit code and an optional terminating signal. -/
inductive WaitTimeoutResult
  | ioError
  | timedOut
  | exited (code : Option Int) (signal : Option Int)
deriving DecidableEq, Repr

/-- What the operating system does for one run: whether the spawn (test
    branch) or `status` call (plain branch) succeeds, how the race with the
    timeout ends, and whether `kill` and the subsequent `wait` succeed. -/
structure ProcessBehavior where
  spawn_ok : Bool
  wait_timeout_result : WaitTimeoutResult
  kill_ok : Bool
  wait_ok : Bool
  status_ok : Bool
  status_code : Option Int
deriving DecidableEq, Repr

/-- Observable child-process events of one `run` invocation: the spawn, the
    `child.kill()` attempt and the `child.wait()` reap attempt. -/
inductive RunEvent
  | spawned
  | killed
  | waited
deriving DecidableEq, Repr

/-- Embedding of the exit-code match in `run` (src/run.rs lines 73-77):
    `Some(code) if qemu_exit_code == code => 0`,
    `Some(_) if qemu_exit_code == 0 => 1`, `_ => qemu_exit_code`. -/
def decodeExitCode (test_success_exit_code : Option Int) (qemu_exit_code : Int) : Int :=
  match test_success_exit_code with
  | some code =>
    if qemu_exit_code = code then 0
    else if qemu_exit_code = 0 then 1
    else qemu_exit_code
  | none => qemu_exit_code

/-- Embedding of `run` from src/run.rs.  The first component is `none` when
    the Rust code panics (the out-of-bounds index `run_command[0]` on line 42),
    and otherwise `some` of the `Result<i32, RunError>` value; the second
    component is the trace of child-process events, in order. -/
def run (config : Config) (args : RunnerArgs) (imagePath : List Char)
    (isTest : Bool) (proc : ProcessBehavior) :
    Option (Except RunError Int) × List RunEvent :=
  let run_command := buildRunCommand config args imagePath isTest
  match run_command with
  | [] => (none, [])
  | _ :: _ =>
    if isTest then
      if proc.spawn_ok = false then
        (some (.error (.Io .QemuTestCommand)), [])
      else
        match proc.wait_timeout_result with
        | .ioError => (some (.error (.Io .WaitWithTimeout)), [.spawned])
        | .timedOut =>
          if proc.kill_ok = false then
            (some (.error (.Io .KillQemu)), [.spawned, .killed])
          else if proc.wait_ok = false then
            (some (.error (.Io .WaitForQemu)), [.spawned, .killed, .waited])
          else
            (some (.error .TestTimedOut), [.spawned, .killed, .waited])
        | .exited code _signal =>
          match code with
          | none => (some (.error .NoQemuExitCode), [.spawned])
          | some c =>
            (some (.ok (decodeExitCode config.test_success_exit_code c)), [.spawned])
    else
      if proc.status_ok = false then
        (some (.error (.Io .QemuRunCommand)), [])
      else
        (some (.ok (proc.status_code.getD 1)), [.spawned])

/-! ### File-system paths

Paths are modelled as lists of components; `PathBuf::join` appends one
component, `Path::parent` drops the last one (`None` on an empty path). -/

/-- A file-system path as a list of components. -/
abbrev Path := List (List Char)

/-- Embedding of `PathBuf::join`. -/
def Path.join (p : Path) (c : List Char) : Path := p ++ [c]

/-- Embedding of `Path::parent`. -/
def Path.parent : Path → Option Path
  | [] => none
  | xs => some xs.dropLast

/-- The apostrophe character, used in some literal error messages. -/
def apos : Char := Char.ofNat 39

/-! ### `pad_to_nearest_block_size` (src/builder/disk_image.rs lines 127-154)

The file is modelled by its byte contents; `file.set_len(file_size + padding)`
extends the file with zero bytes. -/

/-- `BLOCK_SIZE` from src/builder/disk_image.rs. -/
def BLOCK_SIZE : Nat := 512

/-- Embedding of `pad_to_nearest_block_size` (src/builder/disk_image.rs):
    extend the file so that its length is the next multiple of `BLOCK_SIZE`;
    the bytes appended by `set_len` are zero. -/
def pad_to_nearest_block_size (file : List Nat) : List Nat :=
  let file_size := file.length
  let remainder := file_size % BLOCK_SIZE
  let padding := if remainder > 0 then BLOCK_SIZE - remainder else 0
  file ++ List.replicate padding 0

/-! ### Cargo metadata model (the fields of `cargo_metadata` read by
src/builder/bootloader.rs and src/builder/mod.rs). -/

/-- A declared dependency: name and optional rename. -/
structure Dependency where
  name : List Char
  rename : Option (List Char)
deriving DecidableEq, Repr

/-- A node of the resolve graph: package id and enabled features. -/
structure ResolveNode where
  id : List Char
  features : List (List Char)
deriving DecidableEq, Repr

/-- The resolve graph. -/
structure Resolve where
  nodes : List ResolveNode
deriving DecidableEq, Repr

/-- A package record of the cargo metadata. -/
structure Package where
  id : List Char
  name : List Char
  manifest_path : Path
  dependencies : List Dependency
deriving DecidableEq, Repr

/-- The cargo metadata snapshot. -/
structure Metadata where
  packages : List Package
  resolve : Option Resolve
  target_directory : Path
deriving DecidableEq, Repr

/-- Embedding of `BootloaderError` from src/builder/error.rs, restricted to
    the variants raised by the embedded functions. -/
inductive BootloaderError
  | BootloaderNotFound
  | KernelPackageNotFound (manifest_path : Path)
  | BootloaderInvalid (msg : List Char)
  | CargoMetadataIncomplete (key : List Char)
deriving DecidableEq, Repr

/-- The literal dependency name looked up by `bootloader_package`. -/
def bootloaderStr : List Char := String.toList "bootloader"

/-- Embedding of `bootloader_package` (src/builder/bootloader.rs lines
    140-159): find the first dependency of the kernel package whose effective
    name (rename if present, else declared name) is `"bootloader"`, then
    resolve it to a package record by name. -/
def bootloader_package (project_metadata : Metadata) (kernel_package : Package) :
    Except BootloaderError Package :=
  match kernel_package.dependencies.find?
      (fun p => (p.rename.getD p.name) == bootloaderStr) with
  | none => .error .BootloaderNotFound
  | some dep =>
    match project_metadata.packages.find? (fun p => p.name == dep.name) with
    | none =>
      .error (.CargoMetadataIncomplete
        (String.toList "packages[name = `" ++ dep.name ++ String.toList "`"))
    | some p => .ok p

/-! ### Build-artifact scan (src/builder/mod.rs lines 177-198)

The machine-readable build output is one record per line; the scan keeps the
`executable` field of each record. -/

/-- One parsed build record, reduced to the only field the scan reads. -/
structure Artifact where
  executable : Option Path
deriving DecidableEq, Repr

/-- The message of the zero-executables error (src/builder/mod.rs line 197). -/
def noExecutableMsg : List Char := String.toList "bootloader has no executable"

/-- The message of the duplicate-executable error (src/builder/mod.rs
    line 190). -/
def multipleExecutablesMsg : List Char :=
  String.toList "bootloader has multiple executables"

/-- The `for` loop of the artifact scan: `bootloader_elf_path` starts as
    `None`; each record with an `executable` field replaces it, erroring if it
    was already `Some`. -/
def scanExecutablesLoop :
    List Artifact → Option Path → Except BootloaderError (Option Path)
  | [], acc => .ok acc
  | a :: rest, acc =>
    match a.executable with
    | none => scanExecutablesLoop rest acc
    | some exe =>
      match acc with
      | some _ => .error (.BootloaderInvalid multipleExecutablesMsg)
      | none => scanExecutablesLoop rest (some exe)

/-- Embedding of the executable-scan portion of `Builder::create_bootimage`
    (src/builder/mod.rs lines 177-198). -/
def scanExecutables (artifacts : List Artifact) : Except BootloaderError Path := do
  match ← scanExecutablesLoop artifacts none with
  | none => .error (.BootloaderInvalid noExecutableMsg)
  | some p => .ok p

/-! ### Minimal TOML model (the accesses performed by
`BuildConfig::from_metadata` on the bootloader manifest). -/

/-- A TOML value, reduced to the shapes inspected by the code. -/
inductive Toml
  | str (s : List Char)
  | boolean (b : Bool)
  | table (kvs : List (List Char × Toml))
  | other

/-- Embedding of `toml::Value::get` (table lookup; `None` on non-tables). -/
def Toml.get : Toml → List Char → Option Toml
  | .table kvs, key => (kvs.find? (fun kv => kv.1 == key)).map (fun kv => kv.2)
  | _, _ => none

/-- Embedding of `toml::Value::as_str`. -/
def Toml.as_str : Toml → Option (List Char)
  | .str s => some s
  | _ => none

/-- Outcome of reading and parsing a manifest file: a read error
    (`fs::read_to_string` fails), a parse error (`parse::<toml::Value>`
    fails), or the parsed value. -/
inductive TomlReadOutcome
  | readErr (errMsg : List Char)
  | parseErr (errMsg : List Char)
  | ok (t : Toml)

/-! ### `BuildConfig` and its derivation (src/builder/bootloader.rs) -/

/-- Embedding of the `BuildConfig` struct from src/builder/bootloader.rs. -/
structure BuildConfig where
  manifest_path : Path
  bootloader_name : List Char
  target : Path
  features : List (List Char)
  target_dir : Path
  kernel_bin_path : Path
  kernel_manifest_path : Path
  build_std : Option (List Char)

/-- Key `"package"`. -/
def packageKey : List Char := String.toList "package"

/-- Key `"metadata"`. -/
def metadataKey : List Char := String.toList "metadata"

/-- Key `"target"`. -/
def targetKey : List Char := String.toList "target"

/-- Key `"build-std"`. -/
def buildStdKey : List Char := String.toList "build-std"

/-- Key `"features"`. -/
def featuresKey : List Char := String.toList "features"

/-- Key and feature name `"binary"`. -/
def binaryKey : List Char := String.toList "binary"

/-- Key `"resolve"` of the `CargoMetadataIncomplete` error raised when the
    metadata has no resolve graph (src/builder/bootloader.rs line 79). -/
def resolveKey : List Char := String.toList "resolve"

/-- Error message for a missing or non-string
    `package.metadata.bootloader.target` key. -/
def targetKeyMissingMsg : List Char :=
  String.toList
      "No `package.metadata.bootloader.target` key found in Cargo.toml of bootloader\n\n(If you"
    ++ [apos]
    ++ String.toList "re using the official bootloader crate, you need at least version 0.5.1)"

/-- Error message for a non-string `package.metadata.bootloader.build-std`
    key. -/
def buildStdNonStringMsg : List Char :=
  String.toList
    "A non-string `package.metadata.bootloader.build-std` key found in Cargo.toml of bootloader"

/-- The `CargoMetadataIncomplete` key naming the missing resolve node for the
    bootloader package (src/builder/bootloader.rs line 86:
    `format!("resolve[\"\x7b\x7d\"]", bootloader_pkg.name)`). -/
def resolveNodeKey (bootloader_name : List Char) : List Char :=
  String.toList "resolve[\"" ++ bootloader_name ++ String.toList "\"]"

/-- Embedding of `BuildConfig::from_metadata` (src/builder/bootloader.rs lines
    22-110).  `env` models the combination of `fs::read_to_string` and TOML
    parsing applied to the bootloader manifest path. -/
def from_metadata (env : Path → TomlReadOutcome) (project_metadata : Metadata)
    (kernel_manifest_path : Path) (kernel_bin_path : Path) :
    Except BootloaderError BuildConfig := do
  let kernel_pkg ←
    match project_metadata.packages.find?
        (fun p => p.manifest_path == kernel_manifest_path) with
    | none => Except.error (.KernelPackageNotFound kernel_manifest_path)
    | some p => Except.ok p
  let bootloader_pkg ← bootloader_package project_metadata kernel_pkg
  let bootloader_root ←
    match Path.parent bootloader_pkg.manifest_path with
    | none =>
      Except.error
        (.BootloaderInvalid (String.toList "bootloader manifest has no target directory"))
    | some r => Except.ok r
  let cargo_toml ←
    match env bootloader_pkg.manifest_path with
    | .readErr e =>
      Except.error
        (.BootloaderInvalid (String.toList "bootloader has no valid Cargo.toml: " ++ e))
    | .parseErr e =>
      Except.error
        (.BootloaderInvalid (String.toList "Failed to parse Cargo.toml of bootloader: " ++ e))
    | .ok t => Except.ok t
  let metadata := (cargo_toml.get packageKey).bind (fun t => t.get metadataKey)
  let target :=
    ((metadata.bind (fun t => t.get bootloaderStr)).bind (fun t => t.get targetKey))
  let target_str ←
    match target.bind Toml.as_str with
    | none => Except.error (.BootloaderInvalid targetKeyMissingMsg)
    | some s => Except.ok s
  let build_std ←
    match (metadata.bind (fun t => t.get bootloaderStr)).bind
        (fun t => t.get buildStdKey) with
    | none => Except.ok (none : Option (List Char))
    | some key =>
      match key.as_str with
      | none => Except.error (.BootloaderInvalid buildStdNonStringMsg)
      | some s => Except.ok (some s)
  let binary_feature :=
    ((cargo_toml.get featuresKey).bind (fun f => f.get binaryKey)).isSome
  let resolve ←
    match project_metadata.resolve with
    | none => Except.error (.CargoMetadataIncomplete resolveKey)
    | some r => Except.ok r
  let bootloader_resolve ←
    match resolve.nodes.find? (fun n => n.id == bootloader_pkg.id) with
    | none => Except.error (.CargoMetadataIncomplete (resolveNodeKey bootloader_pkg.name))
    | some n => Except.ok n
  let features :=
    bootloader_resolve.features ++ (if binary_feature then [binaryKey] else [])
  let bootloader_name := bootloader_pkg.name
  let target_dir :=
    Path.join (Path.join project_metadata.target_directory (String.toList "bootimage"))
      bootloader_name
  Except.ok {
    manifest_path := bootloader_pkg.manifest_path
    target := Path.join bootloader_root target_str
    features := features
    bootloader_name := bootloader_name
    target_dir := target_dir
    kernel_manifest_path := kernel_pkg.manifest_path
    kernel_bin_path := kernel_bin_path
    build_std := build_std
  }

/-! ### `BuildConfig::build_command` (src/builder/bootloader.rs lines 112-136) -/

/-- An argument or environment value of a `process::Command`: a plain string
    or a path. -/
inductive OsStr
  | str (s : List Char)
  | path (p : Path)
deriving DecidableEq, Repr

/-- The observable state of a `process::Command`: program, arguments, and
    environment bindings, each in insertion order. -/
structure Command where
  program : List Char
  args : List OsStr
  envs : List (List Char × OsStr)

/-- Embedding of `Command::arg`. -/
def Command.argPush (c : Command) (a : OsStr) : Command :=
  { c with args := c.args ++ [a] }

/-- Embedding of `Command::env`. -/
def Command.envPush (c : Command) (k : List Char) (v : OsStr) : Command :=
  { c with envs := c.envs ++ [(k, v)] }

/-- Embedding of `BuildConfig::build_command`.  `cargoEnv` models the `CARGO`
    environment variable (`std::env::var("CARGO")`, defaulting to
    `"cargo"`). -/
def build_command (cargoEnv : Option (List Char)) (self : BuildConfig) : Command :=
  let cargo := cargoEnv.getD (String.toList "cargo")
  let cmd : Command := { program := cargo, args := [], envs := [] }
  let cmd :=
    match self.build_std with
    | some build_std =>
      (cmd.argPush (.str (String.toList "build"))).argPush
        (.str (String.toList "-Zbuild-std=" ++ build_std))
    | none => cmd.argPush (.str (String.toList "xbuild"))
  let cmd := (cmd.argPush (.str (String.toList "--manifest-path"))).argPush
    (.path self.manifest_path)
  let cmd := (cmd.argPush (.str (String.toList "--bin"))).argPush
    (.str self.bootloader_name)
  let cmd := (cmd.argPush (.str (String.toList "--target-dir"))).argPush
    (.path self.target_dir)
  let cmd := (cmd.argPush (.str (String.toList "--features"))).argPush
    (.str (List.intercalate [Char.ofNat 32] self.features))
  let cmd := (cmd.argPush (.str (String.toList "--target"))).argPush
    (.path self.target)
  let cmd := cmd.argPush (.str (String.toList "--release"))
  let cmd := cmd.envPush (String.toList "KERNEL") (.path self.kernel_bin_path)
  let cmd := cmd.envPush (String.toList "KERNEL_MANIFEST")
    (.path self.kernel_manifest_path)
  let cmd := cmd.envPush (String.toList "RUSTFLAGS") (.str [])
  let cmd := cmd.envPush (String.toList "XBUILD_SYSROOT_PATH")
    (.path (Path.join self.target_dir (String.toList "bootloader-sysroot")))
  cmd

/-! ### Test-suite aggregation (src/subcommand/test.rs lines 88-98) -/

/-- Embedding of `TestResult` from src/subcommand/test.rs. -/
inductive TestResult
  | Ok
  | Failed
  | TimedOut
  | Invalid
deriving DecidableEq, Repr

/-- The error message of a failing suite (src/subcommand/test.rs line 97). -/
def someTestsFailedMsg : List Char := String.toList "Some tests failed"

/-- Embedding of the suite aggregation at the end of `test`
    (src/subcommand/test.rs lines 88-98): overall `Ok` when every collected
    result is `TestResult::Ok`; otherwise the non-`Ok` entries are written to
    the report and the suite returns an error.  The second component is the
    list of enumerated failing entries, in order. -/
def testSuiteOutcome (tests : List (List Char × TestResult)) :
    Except (List Char) Unit × List (List Char × TestResult) :=
  if tests.all (fun t => t.2 == TestResult.Ok) then
    (.ok (), [])
  else
    (.error someTestsFailedMsg, tests.filter (fun t => !(t.2 == TestResult.Ok)))

/-! ### Concrete test fixtures (used by witnesses) -/

/-- A concrete kernel manifest path. -/
def kManifestEx : Path := [String.toList "kernel", String.toList "Cargo.toml"]

/-- A concrete bootloader manifest path. -/
def bManifestEx : Path := [String.toList "bootloader", String.toList "Cargo.toml"]

/-- A concrete kernel package depending on `bootloader`. -/
def kernelPkgEx : Package :=
  ⟨String.toList "kid", String.toList "kernel", kManifestEx, [⟨bootloaderStr, none⟩]⟩

/-- A concrete bootloader package. -/
def bootloaderPkgEx : Package :=
  ⟨String.toList "bid", bootloaderStr, bManifestEx, []⟩

/-- A concrete bootloader manifest with a `package.metadata.bootloader.target`
    key. -/
def tomlEx : Toml :=
  .table [(packageKey, .table [(metadataKey, .table [(bootloaderStr,
    .table [(targetKey, .str (String.toList "x86_64-bootloader.json"))])])])]

/-- A concrete file-system environment serving the bootloader manifest. -/
def envEx : Path → TomlReadOutcome :=
  fun p => if p == bManifestEx then .ok tomlEx else .readErr []

/-- Concrete metadata missing the resolve graph. -/
def metadataNoResolveEx : Metadata :=
  ⟨[kernelPkgEx, bootloaderPkgEx], none, [String.toList "target"]⟩

/-- Concrete metadata with a resolve node for the bootloader package. -/
def metadataResolvedEx : Metadata :=
  ⟨[kernelPkgEx, bootloaderPkgEx],
   some ⟨[⟨String.toList "bid", [String.toList "default"]⟩]⟩,
   [String.toList "target"]⟩

/-- The build config derived from the concrete resolved metadata. -/
def buildConfigEx : BuildConfig :=
  ⟨bManifestEx, bootloaderStr,
   [String.toList "bootloader", String.toList "x86_64-bootloader.json"],
   [String.toList "default"],
   [String.toList "target", String.toList "bootimage", bootloaderStr],
   [], kManifestEx, none⟩

/-! ### Helper lemmas -/

/-- `Except.ok` bound with a continuation reduces to the continuation. -/
theorem exceptOkBind {ε α β : Type} (a : α) (f : α → Except ε β) :
    (Except.ok a : Except ε α) >>= f = f a := rfl

/-- `Except.error` bound with a continuation stays an error. -/
theorem exceptErrorBind {ε α β : Type} (e : ε) (f : α → Except ε β) :
    (Except.error e : Except ε α) >>= f = Except.error e := rfl

/-- Intercalation over a two-or-more-element list peels off the head. -/
theorem intercalateConsCons (sep s t : List Char) (ss : List (List Char)) :
    List.intercalate sep (s :: t :: ss) = s ++ sep ++ List.intercalate sep (t :: ss) := by
  simp [List.intercalate, List.intersperse_cons_cons, List.append_assoc]

/-- Intercalation over a one-element list is that element. -/
theorem intercalateSingle (sep s : List Char) : List.intercalate sep [s] = s := by
  simp [List.intercalate]

/-- A character consed onto the first chunk moves out of the intercalation. -/
theorem intercalateConsHead (sep : List Char) (c : Char) (s : List Char)
    (ss : List (List Char)) :
    List.intercalate sep ((c :: s) :: ss) = c :: List.intercalate sep (s :: ss) := by
  cases ss with
  | nil => simp [intercalateSingle]
  | cons t ss => simp [intercalateConsCons]

/-- `splitOnBrace` never returns an empty list of chunks. -/
theorem splitOnBrace_ne_nil (l : List Char) : splitOnBrace l ≠ [] := by
  match l with
  | [] => simp [splitOnBrace]
  | [c] => simp [splitOnBrace]
  | c :: d :: rest =>
    simp only [splitOnBrace]
    split
    · split
      · simp
      · cases hs : splitOnBrace (d :: rest) <;> simp [hs]
    · cases hs : splitOnBrace (d :: rest) <;> simp [hs]

/-- An infix of a list is an infix of any extension by one head element. -/
theorem isInfixCons {xs : List Char} {c : Char} (h : List.IsInfix bracePair xs) :
    List.IsInfix bracePair (c :: xs) := by
  obtain ⟨s, t, hst⟩ := h
  exact ⟨c :: s, t, by rw [← hst]; rfl⟩

/-- If no record carries an `executable` field, the scan loop returns its
    accumulator. -/
theorem scanLoop_no_exe (artifacts : List Artifact)
    (h : artifacts.filterMap (fun a => a.executable) = []) (acc : Option Path) :
    scanExecutablesLoop artifacts acc = .ok acc := by
  induction artifacts with
  | nil => rfl
  | cons a rest ih =>
    cases ha : a.executable with
    | none =>
      rw [List.filterMap_cons, ha] at h
      simp only [scanExecutablesLoop, ha]
      exact ih h
    | some exe =>
      rw [List.filterMap_cons, ha] at h
      exact absurd h (by simp)

/-- Once the accumulator is filled, any further `executable` record makes the
    scan loop fail with the duplicate-executable error. -/
theorem scanLoop_full_acc (artifacts : List Artifact)
    (h : artifacts.filterMap (fun a => a.executable) ≠ []) (p : Path) :
    scanExecutablesLoop artifacts (some p)
      = .error (.BootloaderInvalid multipleExecutablesMsg) := by
  induction artifacts with
  | nil => exact absurd rfl h
  | cons a rest ih =>
    cases ha : a.executable with
    | none =>
      rw [List.filterMap_cons, ha] at h
      simp only [scanExecutablesLoop, ha]
      exact ih h
    | some exe => simp [scanExecutablesLoop, ha]

/-- The scan loop started from an empty accumulator, described by the list of
    `executable` fields of the stream. -/
theorem scanLoop_from_none (artifacts : List Artifact) :
    scanExecutablesLoop artifacts none =
      match artifacts.filterMap (fun a => a.executable) with
      | [] => .ok none
      | [p] => .ok (some p)
      | _ :: _ :: _ => .error (.BootloaderInvalid multipleExecutablesMsg) := by
  induction artifacts with
  | nil => rfl
  | cons a rest ih =>
    cases ha : a.executable with
    | none => simp only [scanExecutablesLoop, ha, List.filterMap_cons]; exact ih
    | some exe =>
      simp only [scanExecutablesLoop, ha, List.filterMap_cons]
      cases hr : rest.filterMap (fun a => a.executable) with
      | nil => exact scanLoop_no_exe rest hr (some exe)
      | cons q qs => exact scanLoop_full_acc rest (by simp [hr]) exe

/-! ### Claim theorems -/

/-- C3: for every file the padding step produces a length that is a multiple
    of 512 bytes, and a file whose length is already a multiple of 512 is left
    entirely unchanged (padding is idempotent). -/
theorem C3_padding_aligned (file : List Nat) :
    (pad_to_nearest_block_size file).length % BLOCK_SIZE = 0 ∧
    (file.length % BLOCK_SIZE = 0 → pad_to_nearest_block_size file = file) := by
  constructor
  · simp only [pad_to_nearest_block_size, BLOCK_SIZE, List.length_append,
      List.length_replicate]
    split <;> omega
  · intro h
    simp only [pad_to_nearest_block_size, BLOCK_SIZE] at h ⊢
    rw [h]
    simp

/-- Witness for C3 at the empty file. -/
theorem C3_padding_aligned_witness :
    (pad_to_nearest_block_size ([] : List Nat)).length % BLOCK_SIZE = 0 ∧
    pad_to_nearest_block_size ([] : List Nat) = [] :=
  ⟨(C3_padding_aligned []).1, (C3_padding_aligned []).2 rfl⟩

/-- C4 fails as stated: a stream whose two `executable` records carry the same
    path still yields the multiple-executables error, although the claim says
    it should yield that path unchanged. -/
theorem C4_counterexample :
    scanExecutables
        [⟨some [String.toList "app"]⟩, ⟨some [String.toList "app"]⟩]
      = .error (.BootloaderInvalid multipleExecutablesMsg) ∧
    (Except.error (BootloaderError.BootloaderInvalid multipleExecutablesMsg)
        : Except BootloaderError Path)
      ≠ .ok [String.toList "app"] :=
  ⟨rfl, by decide⟩

/-- C4 (amended): zero `executable` records yield the no-executable error, two
    or more `executable` records (whether or not their paths are distinct)
    yield the multiple-executables error, and exactly one record yields its
    path unchanged. -/
theorem C4_executable_scan (artifacts : List Artifact) :
    (artifacts.filterMap (fun a => a.executable) = [] →
       scanExecutables artifacts = .error (.BootloaderInvalid noExecutableMsg)) ∧
    (2 ≤ (artifacts.filterMap (fun a => a.executable)).length →
       scanExecutables artifacts
         = .error (.BootloaderInvalid multipleExecutablesMsg)) ∧
    (∀ p, artifacts.filterMap (fun a => a.executable) = [p] →
       scanExecutables artifacts = .ok p) := by
  refine ⟨?_, ?_, ?_⟩
  · intro h
    simp only [scanExecutables, scanLoop_from_none, h]
    rfl
  · intro h
    cases he : artifacts.filterMap (fun a => a.executable) with
    | nil => rw [he] at h; simp at h
    | cons q qs =>
      cases qs with
      | nil => rw [he] at h; simp at h
      | cons q2 qs2 =>
        simp only [scanExecutables, scanLoop_from_none, he]
        rfl
  · intro p h
    simp only [scanExecutables, scanLoop_from_none, h]
    rfl

/-- Witness for C4 (amended) at a one-record stream. -/
theorem C4_executable_scan_witness :
    scanExecutables [⟨some [String.toList "app"]⟩] = .ok [String.toList "app"] :=
  (C4_executable_scan [⟨some [String.toList "app"]⟩]).2.2 [String.toList "app"] rfl

/-- C5: the bootloader lookup fails with `BootloaderNotFound` exactly when no
    dependency of the kernel package has effective name (rename if present,
    else declared name) `"bootloader"`, and a successful lookup returns a
    package named after such a dependency. -/
theorem C5_bootloader_lookup (m : Metadata) (k : Package) :
    (bootloader_package m k = .error .BootloaderNotFound ↔
       ∀ d ∈ k.dependencies, d.rename.getD d.name ≠ bootloaderStr) ∧
    (∀ p, bootloader_package m k = .ok p →
       ∃ d ∈ k.dependencies,
         d.rename.getD d.name = bootloaderStr ∧ p.name = d.name ∧ p ∈ m.packages) := by
  cases hf : k.dependencies.find? (fun p => (p.rename.getD p.name) == bootloaderStr) with
  | none =>
    have hall : ∀ d ∈ k.dependencies, d.rename.getD d.name ≠ bootloaderStr := by
      intro d hd
      have := List.find?_eq_none.mp hf d hd
      simpa using this
    constructor
    · exact iff_of_true (by simp [bootloader_package, hf]) hall
    · intro p hp
      simp [bootloader_package, hf] at hp
  | some dep =>
    have hmem := List.mem_of_find?_eq_some hf
    have hpred : dep.rename.getD dep.name = bootloaderStr := by
      have := List.find?_some hf
      simpa using this
    have hnotall : ¬ ∀ d ∈ k.dependencies, d.rename.getD d.name ≠ bootloaderStr :=
      fun hall => absurd hpred (hall dep hmem)
    cases hg : m.packages.find? (fun p => p.name == dep.name) with
    | none =>
      constructor
      · exact iff_of_false (by simp [bootloader_package, hf, hg]) hnotall
      · intro p hp
        simp [bootloader_package, hf, hg] at hp
    | some q =>
      constructor
      · exact iff_of_false (by simp [bootloader_package, hf, hg]) hnotall
      · intro p hp
        simp only [bootloader_package, hf, hg] at hp
        have hq : p = q := by simpa using hp.symm
        subst hq
        have hname : p.name = dep.name := by
          have := List.find?_some hg
          simpa using this
        exact ⟨dep, hmem, hpred, hname, List.mem_of_find?_eq_some hg⟩

/-- Witness for C5 at a kernel package with a single non-bootloader
    dependency. -/
theorem C5_bootloader_lookup_witness :
    bootloader_package ⟨[], none, []⟩
        ⟨String.toList "kid", String.toList "kernel", [],
         [⟨String.toList "serde", none⟩]⟩
      = .error .BootloaderNotFound :=
  (C5_bootloader_lookup ⟨[], none, []⟩
      ⟨String.toList "kid", String.toList "kernel", [],
       [⟨String.toList "serde", none⟩]⟩).1.mpr (by decide)

/-- C6: the suite succeeds exactly when every collected verdict is `Ok`;
    otherwise the outcome is the failing error and every non-`Ok` test is
    individually enumerated in the final report. -/
theorem C6_suite_aggregation (tests : List (List Char × TestResult)) :
    ((testSuiteOutcome tests).fst = .ok () ↔ ∀ t ∈ tests, t.2 = TestResult.Ok) ∧
    ((∃ t ∈ tests, t.2 ≠ TestResult.Ok) →
       (testSuiteOutcome tests).fst = .error someTestsFailedMsg) ∧
    (∀ t ∈ tests, t.2 ≠ TestResult.Ok → t ∈ (testSuiteOutcome tests).snd) := by
  by_cases h : tests.all (fun t => t.2 == TestResult.Ok)
  · have hall : ∀ t ∈ tests, t.2 = TestResult.Ok := by
      intro t ht
      have := List.all_eq_true.mp h t ht
      simpa using this
    have hfst : (testSuiteOutcome tests).fst = .ok () := by
      unfold testSuiteOutcome
      rw [if_pos h]
    refine ⟨iff_of_true hfst hall, ?_, ?_⟩
    · rintro ⟨t, ht, hne⟩
      exact absurd (hall t ht) hne
    · intro t ht hne
      exact absurd (hall t ht) hne
  · have hex : ¬ ∀ t ∈ tests, t.2 = TestResult.Ok := by
      intro hall
      exact h (List.all_eq_true.mpr fun t ht => by simp [hall t ht])
    have hfst : (testSuiteOutcome tests).fst = .error someTestsFailedMsg := by
      unfold testSuiteOutcome
      rw [if_neg h]
    have hsnd : (testSuiteOutcome tests).snd
        = tests.filter (fun t => !(t.2 == TestResult.Ok)) := by
      unfold testSuiteOutcome
      rw [if_neg h]
    refine ⟨iff_of_false (by rw [hfst]; simp) hex, fun _ => hfst, ?_⟩
    intro t ht hne
    rw [hsnd]
    exact List.mem_filter.mpr ⟨ht, by simpa using hne⟩

/-- Witness for C6 at a two-test suite with one failing test. -/
theorem C6_suite_aggregation_witness :
    (String.toList "b", TestResult.TimedOut) ∈
      (testSuiteOutcome
        [(String.toList "a", TestResult.Ok),
         (String.toList "b", TestResult.TimedOut)]).snd :=
  (C6_suite_aggregation
      [(String.toList "a", TestResult.Ok),
       (String.toList "b", TestResult.TimedOut)]).2.2
    (String.toList "b", TestResult.TimedOut) (by decide) (by decide)

/-- C1 fails as stated: with a custom success exit code configured (33) and a
    raw emulator exit code of 0, the run yields exit code 1, not the raw code
    0 verbatim. -/
theorem C1_counterexample :
    (run ⟨[String.toList "qemu"], false, none, none, 5, some 33⟩ ⟨none, true⟩
        [] true ⟨true, .exited (some 0) none, true, true, true, none⟩).fst
      = some (.ok 1) ∧
    (some (Except.ok 1) : Option (Except RunError Int)) ≠ some (.ok 0) := by
  constructor
  · rfl
  · decide

/-- C1 (amended): for a test run whose child exits with an available code `c`,
    the run yields 0 when `c` equals the configured success code, yields `c`
    verbatim when `c` differs from the configured success code and is nonzero,
    yields 1 when a success code is configured, `c` differs from it and
    `c = 0`, and yields `c` verbatim when no success code is configured. -/
theorem C1_exit_code_decode (config : Config) (args : RunnerArgs)
    (imagePath : List Char) (proc : ProcessBehavior) (c : Int) (sig : Option Int)
    (hcmd : buildRunCommand config args imagePath true ≠ [])
    (hspawn : proc.spawn_ok = true)
    (hexit : proc.wait_timeout_result = .exited (some c) sig) :
    (config.test_success_exit_code = some c →
       (run config args imagePath true proc).fst = some (.ok 0)) ∧
    (∀ s, config.test_success_exit_code = some s → c ≠ s → c ≠ 0 →
       (run config args imagePath true proc).fst = some (.ok c)) ∧
    (∀ s, config.test_success_exit_code = some s → c ≠ s → c = 0 →
       (run config args imagePath true proc).fst = some (.ok 1)) ∧
    (config.test_success_exit_code = none →
       (run config args imagePath true proc).fst = some (.ok c)) := by
  have hrun : (run config args imagePath true proc).fst
      = some (.ok (decodeExitCode config.test_success_exit_code c)) := by
    cases hbc : buildRunCommand config args imagePath true with
    | nil => exact absurd hbc hcmd
    | cons hd tl => simp [run, hbc, hspawn, hexit]
  refine ⟨?_, ?_, ?_, ?_⟩
  · intro hs
    rw [hrun]
    simp [decodeExitCode, hs]
  · intro s hs hne hnz
    rw [hrun]
    simp [decodeExitCode, hs, if_neg hne, if_neg hnz]
  · intro s hs hne hz
    rw [hrun]
    subst hz
    simp [decodeExitCode, hs, if_neg hne]
  · intro hs
    rw [hrun]
    simp [decodeExitCode, hs]

/-- Witness for C1 (amended): a matching success code yields exit code 0. -/
theorem C1_exit_code_decode_witness :
    (run ⟨[String.toList "qemu"], false, none, none, 5, some 33⟩ ⟨none, true⟩
        [] true ⟨true, .exited (some 33) none, true, true, true, none⟩).fst
      = some (.ok 0) :=
  (C1_exit_code_decode ⟨[String.toList "qemu"], false, none, none, 5, some 33⟩
      ⟨none, true⟩ [] ⟨true, .exited (some 33) none, true, true, true, none⟩
      33 none (by decide) rfl rfl).1 rfl

/-- C2 fails as stated: when the timeout elapses and the kill step fails, the
    run returns the kill I/O error without performing the wait (reap) step,
    and the verdict is not `Timeout`. -/
theorem C2_counterexample :
    (run ⟨[String.toList "qemu"], false, none, none, 5, none⟩ ⟨none, true⟩
        [] true ⟨true, .timedOut, false, true, true, none⟩).fst
      = some (.error (.Io .KillQemu)) ∧
    RunError.Io .KillQemu ≠ RunError.TestTimedOut ∧
    RunEvent.waited ∉
      (run ⟨[String.toList "qemu"], false, none, none, 5, none⟩ ⟨none, true⟩
        [] true ⟨true, .timedOut, false, true, true, none⟩).snd := by
  refine ⟨rfl, by decide, ?_⟩
  intro hmem
  rw [show (run ⟨[String.toList "qemu"], false, none, none, 5, none⟩ ⟨none, true⟩
      [] true ⟨true, .timedOut, false, true, true, none⟩).snd
      = [.spawned, .killed] from rfl] at hmem
  simp at hmem

/-- C2 (amended): when the timeout elapses the kill step is always attempted;
    if the kill succeeds the wait (reap) step is always performed; the run
    yields the `TestTimedOut` verdict when kill and wait both succeed, and
    when the kill fails the run returns the kill I/O error without the wait
    step. -/
theorem C2_timeout_reap (config : Config) (args : RunnerArgs)
    (imagePath : List Char) (proc : ProcessBehavior)
    (hcmd : buildRunCommand config args imagePath true ≠ [])
    (hspawn : proc.spawn_ok = true)
    (htimeout : proc.wait_timeout_result = .timedOut) :
    RunEvent.killed ∈ (run config args imagePath true proc).snd ∧
    (proc.kill_ok = true →
       RunEvent.waited ∈ (run config args imagePath true proc).snd) ∧
    (proc.kill_ok = true → proc.wait_ok = true →
       (run config args imagePath true proc).fst = some (.error .TestTimedOut)) ∧
    (proc.kill_ok = false →
       (run config args imagePath true proc).fst = some (.error (.Io .KillQemu)) ∧
       RunEvent.waited ∉ (run config args imagePath true proc).snd) := by
  cases hbc : buildRunCommand config args imagePath true with
  | nil => exact absurd hbc hcmd
  | cons hd tl =>
    cases hk : proc.kill_ok <;> cases hw : proc.wait_ok <;>
      simp [run, hbc, hspawn, htimeout, hk, hw]

/-- Witness for C2 (amended): with a successful kill and wait, the verdict is
    `TestTimedOut` and the wait step is in the trace. -/
theorem C2_timeout_reap_witness :
    RunEvent.waited ∈
      (run ⟨[String.toList "qemu"], false, none, none, 5, none⟩ ⟨none, true⟩
        [] true ⟨true, .timedOut, true, true, true, none⟩).snd :=
  (C2_timeout_reap ⟨[String.toList "qemu"], false, none, none, 5, none⟩
      ⟨none, true⟩ [] ⟨true, .timedOut, true, true, true, none⟩
      (by decide) rfl rfl).2.1 rfl

/-- Placeholder substitution equals splitting on the pattern and interleaving
    the path: every non-overlapping occurrence is replaced. -/
theorem substToken_intercalate (path : List Char) (tok : List Char) :
    substToken path tok = List.intercalate path (splitOnBrace tok) := by
  induction tok using substToken.induct path with
  | case1 => simp [substToken, splitOnBrace, intercalateSingle]
  | case2 c => simp [substToken, splitOnBrace, intercalateSingle]
  | case3 rest2 ih =>
    obtain ⟨s, ss, hsplit⟩ : ∃ s ss, splitOnBrace rest2 = s :: ss := by
      cases hs : splitOnBrace rest2 with
      | nil => exact absurd hs (splitOnBrace_ne_nil rest2)
      | cons s ss => exact ⟨s, ss, rfl⟩
    rw [show substToken path (lbrace :: rbrace :: rest2) = path ++ substToken path rest2
          from by simp [substToken],
        show splitOnBrace (lbrace :: rbrace :: rest2) = [] :: splitOnBrace rest2
          from by simp [splitOnBrace],
        ih, hsplit, intercalateConsCons]
    simp
  | case4 d rest2 hd ih =>
    obtain ⟨s, ss, hsplit⟩ : ∃ s ss, splitOnBrace (d :: rest2) = s :: ss := by
      cases hs : splitOnBrace (d :: rest2) with
      | nil => exact absurd hs (splitOnBrace_ne_nil (d :: rest2))
      | cons s ss => exact ⟨s, ss, rfl⟩
    rw [show substToken path (lbrace :: d :: rest2)
          = lbrace :: substToken path (d :: rest2) from by simp [substToken, hd],
        show splitOnBrace (lbrace :: d :: rest2) = (lbrace :: s) :: ss
          from by simp [splitOnBrace, hd, hsplit],
        ih, hsplit, intercalateConsHead]
  | case5 c d rest2 hc ih =>
    obtain ⟨s, ss, hsplit⟩ : ∃ s ss, splitOnBrace (d :: rest2) = s :: ss := by
      cases hs : splitOnBrace (d :: rest2) with
      | nil => exact absurd hs (splitOnBrace_ne_nil (d :: rest2))
      | cons s ss => exact ⟨s, ss, rfl⟩
    rw [show substToken path (c :: d :: rest2)
          = c :: substToken path (d :: rest2) from by simp [substToken, hc],
        show splitOnBrace (c :: d :: rest2) = (c :: s) :: ss
          from by simp [splitOnBrace, hc, hsplit],
        ih, hsplit, intercalateConsHead]

/-- A token without the placeholder pattern passes through substitution
    unchanged. -/
theorem substToken_no_brace (path : List Char) (tok : List Char) :
    ¬ List.IsInfix bracePair tok → substToken path tok = tok := by
  induction tok using substToken.induct path with
  | case1 => intro _; rfl
  | case2 c => intro _; rfl
  | case3 rest2 ih =>
    intro h
    exact absurd ⟨[], rest2, rfl⟩ h
  | case4 d rest2 hd ih =>
    intro h
    have htail : ¬ List.IsInfix bracePair (d :: rest2) := fun hin => h (isInfixCons hin)
    rw [show substToken path (lbrace :: d :: rest2)
          = lbrace :: substToken path (d :: rest2) from by simp [substToken, hd],
        ih htail]
  | case5 c d rest2 hc ih =>
    intro h
    have htail : ¬ List.IsInfix bracePair (d :: rest2) := fun hin => h (isInfixCons hin)
    rw [show substToken path (c :: d :: rest2)
          = c :: substToken path (d :: rest2) from by simp [substToken, hc],
        ih htail]

/-- C9 fails as stated: with an empty command template but a non-empty list of
    appended test arguments, the run does not panic (the out-of-bounds index
    is never reached), against the claim that every empty template panics. -/
theorem C9_counterexample :
    (run ⟨[], false, some [String.toList "x"], none, 5, none⟩ ⟨none, true⟩
        [] true ⟨true, .exited (some 33) none, true, true, true, none⟩).fst
      ≠ none := by
  rw [show (run ⟨[], false, some [String.toList "x"], none, 5, none⟩ ⟨none, true⟩
      [] true ⟨true, .exited (some 33) none, true, true, true, none⟩).fst
      = some (.ok 33) from rfl]
  simp

/-- C9 (amended): the run panics (out-of-bounds index on the first token)
    exactly when the fully assembled argv — the substituted template plus all
    appended arguments — is empty; in particular every non-empty template
    makes the indexing in bounds, and an empty template alone does not imply a
    panic. -/
theorem C9_empty_argv_panic (config : Config) (args : RunnerArgs)
    (imagePath : List Char) (isTest : Bool) (proc : ProcessBehavior) :
    ((run config args imagePath isTest proc).fst = none ↔
       buildRunCommand config args imagePath isTest = []) ∧
    (config.run_command ≠ [] → (run config args imagePath isTest proc).fst ≠ none) := by
  have hiff : (run config args imagePath isTest proc).fst = none ↔
      buildRunCommand config args imagePath isTest = [] := by
    cases hbc : buildRunCommand config args imagePath isTest with
    | nil => simp [run, hbc]
    | cons hd tl =>
      apply iff_of_false ?_ (by simp)
      cases isTest with
      | false =>
        cases hst : proc.status_ok <;> simp [run, hbc, hst]
      | true =>
        cases hspawn : proc.spawn_ok with
        | false => simp [run, hbc, hspawn]
        | true =>
          cases hwtr : proc.wait_timeout_result with
          | ioError => simp [run, hbc, hspawn, hwtr]
          | timedOut =>
            cases hk : proc.kill_ok <;> cases hw : proc.wait_ok <;>
              simp [run, hbc, hspawn, hwtr, hk, hw]
          | exited code sig =>
            cases code <;> simp [run, hbc, hspawn, hwtr]
  refine ⟨hiff, ?_⟩
  intro hne hnone
  rw [hiff] at hnone
  apply hne
  cases isTest with
  | true =>
    cases hnr : config.test_no_reboot <;>
      simp [buildRunCommand, hnr, List.append_eq_nil, List.map_eq_nil_iff] at hnone <;>
      tauto
  | false =>
    simp [buildRunCommand, List.append_eq_nil, List.map_eq_nil_iff] at hnone
    tauto

/-- Witness for C9 (amended): a one-token template never panics. -/
theorem C9_empty_argv_panic_witness :
    (run ⟨[String.toList "qemu"], false, none, none, 5, none⟩ ⟨none, true⟩
        [] false ⟨true, .timedOut, true, true, true, some 3⟩).fst ≠ none :=
  (C9_empty_argv_panic ⟨[String.toList "qemu"], false, none, none, 5, none⟩
      ⟨none, true⟩ [] false ⟨true, .timedOut, true, true, true, some 3⟩).2
    (by decide)

/-- C10: the image-path substitution is applied to every token of the command
    template (the template portion of the argv is the token-wise substitution
    of the template), it replaces every non-overlapping occurrence of the
    two-character placeholder in a token with the image path, and a token
    without the placeholder passes through unchanged. -/
theorem C10_placeholder_substitution (config : Config) (args : RunnerArgs)
    (imagePath : List Char) (isTest : Bool) :
    ((buildRunCommand config args imagePath isTest).take config.run_command.length
       = config.run_command.map (substToken imagePath)) ∧
    (∀ tok, substToken imagePath tok
       = List.intercalate imagePath (splitOnBrace tok)) ∧
    (∀ tok, ¬ List.IsInfix bracePair tok → substToken imagePath tok = tok) := by
  refine ⟨?_, fun tok => substToken_intercalate imagePath tok,
    fun tok h => substToken_no_brace imagePath tok h⟩
  have hshape : ∃ rest, buildRunCommand config args imagePath isTest
      = config.run_command.map (substToken imagePath) ++ rest := by
    cases isTest with
    | true =>
      cases hnr : config.test_no_reboot with
      | false =>
        exact ⟨config.test_args.getD [] ++ args.runner_args.getD [],
          by simp [buildRunCommand, hnr, List.append_assoc]⟩
      | true =>
        exact ⟨[noRebootToken] ++ config.test_args.getD [] ++ args.runner_args.getD [],
          by simp [buildRunCommand, hnr, List.append_assoc]⟩
    | false =>
      exact ⟨config.run_args.getD [] ++ args.runner_args.getD [],
        by simp [buildRunCommand, List.append_assoc]⟩
  obtain ⟨rest, hrest⟩ := hshape
  rw [hrest]
  have htake := List.take_left (config.run_command.map (substToken imagePath)) rest
  rwa [List.length_map] at htake

/-- Witness for C10: a placeholder-free token is unchanged. -/
theorem C10_placeholder_substitution_witness :
    substToken (String.toList "IMG") (String.toList "abc") = String.toList "abc" :=
  (C10_placeholder_substitution ⟨[], false, none, none, 0, none⟩ ⟨none, true⟩
      (String.toList "IMG") false).2.2 (String.toList "abc") (by decide)

/-- C7: once the derivation has located the kernel package, resolved the
    bootloader package, and read a valid bootloader manifest, an absent
    resolve graph fails with `CargoMetadataIncomplete` at key `"resolve"`, and
    a resolve graph without a node for the bootloader package id fails with
    `CargoMetadataIncomplete` at the key naming that node. -/
theorem C7_metadata_incomplete
    (env : Path → TomlReadOutcome) (m : Metadata) (kmp kbp : Path)
    (kernel_pkg bootloader_pkg : Package) (root : Path) (toml : Toml)
    (tstr : List Char)
    (h1 : m.packages.find? (fun p => p.manifest_path == kmp) = some kernel_pkg)
    (h2 : bootloader_package m kernel_pkg = .ok bootloader_pkg)
    (h3 : Path.parent bootloader_pkg.manifest_path = some root)
    (h4 : env bootloader_pkg.manifest_path = .ok toml)
    (h5 : (((toml.get packageKey).bind (fun t => t.get metadataKey)).bind
        (fun t => t.get bootloaderStr)).bind (fun t => t.get targetKey)
        = some (Toml.str tstr))
    (h6 : (((toml.get packageKey).bind (fun t => t.get metadataKey)).bind
        (fun t => t.get bootloaderStr)).bind (fun t => t.get buildStdKey) = none ∨
        ∃ bs, (((toml.get packageKey).bind (fun t => t.get metadataKey)).bind
        (fun t => t.get bootloaderStr)).bind (fun t => t.get buildStdKey)
          = some (Toml.str bs)) :
    (m.resolve = none →
       from_metadata env m kmp kbp = .error (.CargoMetadataIncomplete resolveKey)) ∧
    (∀ r, m.resolve = some r →
       r.nodes.find? (fun n => n.id == bootloader_pkg.id) = none →
       from_metadata env m kmp kbp
         = .error (.CargoMetadataIncomplete (resolveNodeKey bootloader_pkg.name))) := by
  constructor
  · intro hres
    rcases h6 with h6 | ⟨bs, h6⟩ <;>
      simp [from_metadata, h1, h2, h3, h4, h5, h6, hres, Toml.as_str,
        exceptOkBind, exceptErrorBind]
  · intro r hres hnode
    rcases h6 with h6 | ⟨bs, h6⟩ <;>
      simp [from_metadata, h1, h2, h3, h4, h5, h6, hres, hnode, Toml.as_str,
        exceptOkBind, exceptErrorBind]

/-- Witness for C7 at a concrete metadata snapshot without a resolve graph. -/
theorem C7_metadata_incomplete_witness :
    from_metadata envEx metadataNoResolveEx kManifestEx []
      = .error (.CargoMetadataIncomplete resolveKey) :=
  (C7_metadata_incomplete envEx metadataNoResolveEx kManifestEx [] kernelPkgEx
      bootloaderPkgEx [String.toList "bootloader"] tomlEx
      (String.toList "x86_64-bootloader.json") rfl rfl rfl rfl rfl
      (Or.inl rfl)).1 rfl

/-- C8: every bootloader build command carries exactly the environment
    bindings `KERNEL` (kernel binary path), `KERNEL_MANIFEST` (kernel manifest
    path), `RUSTFLAGS` cleared to the empty string, and a sysroot-cache path
    directly under the bootloader's own target directory; and every
    successfully derived config places that target directory at
    `<workspace-target-dir>/bootimage/<bootloader-name>`. -/
theorem C8_build_command_env :
    (∀ (cargoEnv : Option (List Char)) (cfg : BuildConfig),
       (build_command cargoEnv cfg).envs =
         [(String.toList "KERNEL", .path cfg.kernel_bin_path),
          (String.toList "KERNEL_MANIFEST", .path cfg.kernel_manifest_path),
          (String.toList "RUSTFLAGS", .str []),
          (String.toList "XBUILD_SYSROOT_PATH",
             .path (Path.join cfg.target_dir (String.toList "bootloader-sysroot")))]) ∧
    (∀ (env : Path → TomlReadOutcome) (m : Metadata) (kmp kbp : Path)
       (cfg : BuildConfig), from_metadata env m kmp kbp = .ok cfg →
       cfg.target_dir
         = Path.join (Path.join m.target_directory (String.toList "bootimage"))
             cfg.bootloader_name) := by
  constructor
  · intro cargoEnv cfg
    cases hbs : cfg.build_std <;>
      simp [build_command, hbs, Command.argPush, Command.envPush]
  · intro env m kmp kbp cfg hok
    simp only [from_metadata] at hok
    cases h1 : m.packages.find? (fun p => p.manifest_path == kmp) with
    | none => rw [h1] at hok; simp [exceptErrorBind] at hok
    | some kernel_pkg =>
    rw [h1] at hok
    simp only [exceptOkBind] at hok
    cases h2 : bootloader_package m kernel_pkg with
    | error e => rw [h2] at hok; simp [exceptErrorBind] at hok
    | ok bootloader_pkg =>
    rw [h2] at hok
    simp only [exceptOkBind] at hok
    cases h3 : Path.parent bootloader_pkg.manifest_path with
    | none => rw [h3] at hok; simp [exceptErrorBind] at hok
    | some root =>
    rw [h3] at hok
    simp only [exceptOkBind] at hok
    cases h4 : env bootloader_pkg.manifest_path with
    | readErr e => rw [h4] at hok; simp [exceptErrorBind] at hok
    | parseErr e => rw [h4] at hok; simp [exceptErrorBind] at hok
    | ok toml =>
    rw [h4] at hok
    simp only [exceptOkBind] at hok
    cases h5 : ((((toml.get packageKey).bind (fun t => t.get metadataKey)).bind
        (fun t => t.get bootloaderStr)).bind (fun t => t.get targetKey)).bind
        Toml.as_str with
    | none => rw [h5] at hok; simp [exceptErrorBind] at hok
    | some tstr =>
    rw [h5] at hok
    simp only [exceptOkBind] at hok
    cases h6 : (((toml.get packageKey).bind (fun t => t.get metadataKey)).bind
        (fun t => t.get bootloaderStr)).bind (fun t => t.get buildStdKey) with
    | none =>
      rw [h6] at hok
      simp only [exceptOkBind] at hok
      cases h7 : m.resolve with
      | none => rw [h7] at hok; simp [exceptErrorBind] at hok
      | some r =>
      rw [h7] at hok
      simp only [exceptOkBind] at hok
      cases h8 : r.nodes.find? (fun n => n.id == bootloader_pkg.id) with
      | none => rw [h8] at hok; simp [exceptErrorBind] at hok
      | some node =>
      rw [h8] at hok
      simp only [exceptOkBind] at hok
      injection hok with hrec
      rw [← hrec]
    | some key =>
      rw [h6] at hok
      simp only [exceptOkBind] at hok
      cases hks : key.as_str with
      | none => rw [hks] at hok; simp [exceptErrorBind] at hok
      | some bs =>
      rw [hks] at hok
      simp only [exceptOkBind] at hok
      cases h7 : m.resolve with
      | none => rw [h7] at hok; simp [exceptErrorBind] at hok
      | some r =>
      rw [h7] at hok
      simp only [exceptOkBind] at hok
      cases h8 : r.nodes.find? (fun n => n.id == bootloader_pkg.id) with
      | none => rw [h8] at hok; simp [exceptErrorBind] at hok
      | some node =>
      rw [h8] at hok
      simp only [exceptOkBind] at hok
      injection hok with hrec
      rw [← hrec]

/-- Witness for C8 at a concretely derived build config. -/
theorem C8_build_command_env_witness :
    buildConfigEx.target_dir
      = Path.join
          (Path.join metadataResolvedEx.target_directory (String.toList "bootimage"))
          buildConfigEx.bootloader_name :=
  C8_build_command_env.2 envEx metadataResolvedEx kManifestEx [] buildConfigEx rfl

end Bootimage
